import Mathlib

/-!
Verification of the expo-updates configuration engine of `expo-cli`
(`packages/expo-cli/src/commands/eas-build/utils/expoUpdates.ts`, plus the
unnamed parallel variant of the same module).

The embedding models a project as the on-disk state the module reads and
writes: the declared dependencies, the resolved app configuration
(`runtimeVersion`, sdk version, slug), the authenticated username, the
contents of `android/app/build.gradle`, the children of the Android
manifest's `application` element, the shell script of the Xcode
"Bundle React Native code and images" build phase, and the `Expo.plist`
dictionary.  File writes are recorded in a write log so that claims about
*whether* a file is rewritten (not just its final content) are statable.
External collaborators (git staging, the spinner, `plist`/`xcode` parsers)
are outside the state, per the spec's §1 exclusions; parsing and
serialisation are modelled by identifying a file's content with its parsed
form.
-/

namespace ExpoUpdates

/-! ### JavaScript string primitives -/

/-- JS `String.prototype.includes` on character lists: some position of the
subject has `pat` as a prefix (the empty pattern is always found). -/
def listIncludes (pat : List Char) : List Char → Bool
  | [] => decide (pat = [])
  | c :: rest => List.isPrefixOf pat (c :: rest) || listIncludes pat rest

/-- JS `s.includes(pat)`. -/
def strIncludes (s pat : String) : Bool :=
  listIncludes pat.data s.data

/-- JS `s.split('\n')` on character lists: split at every newline, keeping
empty segments. -/
def splitNl : List Char → List (List Char)
  | [] => [[]]
  | c :: rest =>
    let r := splitNl rest
    if c = '\n' then [] :: r
    else
      match r with
      | [] => [[c]]
      | h :: t => (c :: h) :: t

/-- The lines of a Gradle build script, as produced by `split('\n')`. -/
def gradleLines (s : String) : List String :=
  (splitNl s.data).map fun cs => String.mk cs

/-- JS `s.replace(/"$/, '')`: drop a trailing double quote when present. -/
def stripTrailingQuote (s : String) : String :=
  match s.data.getLast? with
  | some c => if c = '\x22' then String.mk s.data.dropLast else s
  | none => s

/-- JS `s.replace(/"/g, "'")`: every double quote becomes a single quote. -/
def singleQuoteVariant (s : String) : String :=
  String.mk (s.data.map fun c => if c = '\x22' then '\x27' else c)

/-- JS truthiness of a string: non-empty. -/
def jsTruthy (s : String) : Bool :=
  decide (s ≠ "")

/-- JS truthiness of a possibly-absent string field. -/
def jsTruthyOpt : Option String → Bool
  | none => false
  | some s => jsTruthy s

/-! ### Literal constants (expoUpdates.ts lines 29-43) -/

namespace ExpoAndroidMetadata

/-- `ExpoAndroidMetadata.SDK_VERSION` (line 30). -/
def SDK_VERSION : String := "expo.modules.updates.EXPO_SDK_VERSION"

/-- `ExpoAndroidMetadata.RUNTIME_VERSION` (line 31). -/
def RUNTIME_VERSION : String := "expo.modules.updates.EXPO_RUNTIME_VERSION"

/-- `ExpoAndroidMetadata.UPDATE_URL` (line 32). -/
def UPDATE_URL : String := "expo.modules.updates.EXPO_UPDATE_URL"

end ExpoAndroidMetadata

namespace ExpoIOSMetadata

/-- `ExpoIOSMetadata.SDK_VERSION` (line 36) — note the source maps the
SDK-version member to the string "EXUpdatesRuntimeVersion". -/
def SDK_VERSION : String := "EXUpdatesRuntimeVersion"

/-- `ExpoIOSMetadata.RUNTIME_VERSION` (line 37) — note the source maps the
runtime-version member to the string "EXUpdatesSDKVersion". -/
def RUNTIME_VERSION : String := "EXUpdatesSDKVersion"

/-- `ExpoIOSMetadata.UPDATE_URL` (line 38). -/
def UPDATE_URL : String := "EXUpdatesURL"

end ExpoIOSMetadata

/-- `iOSBuildScript` (line 41). -/
def iOSBuildScript : String :=
  "../node_modules/expo-updates/scripts/create-manifest-ios.sh"

/-- `androidBuildScript` (lines 42-43). -/
def androidBuildScript : String :=
  "apply from: \x22../../node_modules/expo-updates/scripts/create-manifest-android.gradle\x22"

/-- The single-quoted variant of `androidBuildScript`, written out. -/
def androidBuildScriptSingleQuoted : String :=
  "apply from: \x27../../node_modules/expo-updates/scripts/create-manifest-android.gradle\x27"

/-- The block `configureUpdatesAndroid` appends to `build.gradle`
(line 273): a comment line plus the include line. -/
def gradleAppendBlock : String :=
  "\n// Integration with Expo updates\n" ++ androidBuildScript ++ "\n"

/-! ### Error messages thrown by the module -/

/-- Message of `getAndroidBuildGradleContent`'s error (line 325). -/
def gradleNotFoundMsg (path : String) : String :=
  "Couldn\x27t find gradle build script at " ++ path

/-- Message of `getAndroidManifest`'s error (line 357). -/
def manifestNotFoundMsg (path : String) : String :=
  "Couldn\x27t find Android manifest at " ++ path

/-- Message of `getPbxprojPath`'s error (line 218). -/
def xcodeProjectNotFoundMsg : String := "Couldn\x27t find Xcode project"

/-- Message of `getBundleReactNativePhase`'s error (line 260). -/
def bundlePhaseNotFoundMsg : String :=
  "Couldn\x27t find a build phase script for \x22Bundle React Native code and images\x22"

/-- Message of `getConfigurationOptions`'s error (lines 121-123). -/
def missingConfigMsg : String :=
  "Couldn\x27t find either \x27runtimeVersion\x27 or \x27sdkVersion\x27 to configure \x27expo-updates\x27. Please specify at least one of these properties under the \x27expo\x27 key in \x27app.json\x27"

/-! ### Android manifest model

The children of the manifest's `application` element.  A `meta` node is a
`<meta-data android:name=… android:value=…/>` element; every other child
node (text nodes, other elements) is an `other` node carrying its
serialised text, which is enough to state content-identity claims. -/

inductive MNode where
  | meta (nm v : String)
  | other (s : String)
  deriving DecidableEq, Repr

/-- `findAndroidMetadata` (lines 388-396): first `meta-data` child whose
`android:name` equals `k`; returns its `android:value`. -/
def findMeta (k : String) : List MNode → Option String
  | [] => none
  | MNode.meta nm v :: rest => if nm = k then some v else findMeta k rest
  | MNode.other _ :: rest => findMeta k rest

/-- First `meta-data` child whose `android:name` equals `k`, as a node
(name/value pair); used by the unnamed variant's lookup. -/
def findMetaNode (k : String) : List MNode → Option (String × String)
  | [] => none
  | MNode.meta nm v :: rest => if nm = k then some (nm, v) else findMetaNode k rest
  | MNode.other _ :: rest => findMetaNode k rest

/-- `metadata.setAttribute('android:value', value)` on the node
`findAndroidMetadata` returned: overwrite the value of the first matching
`meta-data` child. -/
def setMetaValue (k v : String) : List MNode → List MNode
  | [] => []
  | MNode.meta nm w :: rest =>
    if nm = k then MNode.meta nm v :: rest else MNode.meta nm w :: setMetaValue k v rest
  | MNode.other s :: rest => MNode.other s :: setMetaValue k v rest

/-- `updateAndroidMetadata` (lines 398-414): overwrite the first matching
record in place, or append a fresh element (with the surrounding text
nodes the source creates). -/
def updateAndroidMetadata (k v : String) (children : List MNode) : List MNode :=
  match findMeta k children with
  | some _ => setMetaValue k v children
  | none => children ++ [MNode.other "  ", MNode.meta k v, MNode.other "\n    "]

/-- `removeAndroidMetadata` (lines 416-423): remove the first matching
`meta-data` child, if any. -/
def removeAndroidMetadata (k : String) : List MNode → List MNode
  | [] => []
  | MNode.meta nm v :: rest =>
    if nm = k then rest else MNode.meta nm v :: removeAndroidMetadata k rest
  | MNode.other s :: rest => MNode.other s :: removeAndroidMetadata k rest

/-- Number of `meta-data` children named `k`. -/
def countMeta (k : String) : List MNode → Nat
  | [] => 0
  | MNode.meta nm _ :: rest => (if nm = k then 1 else 0) + countMeta k rest
  | MNode.other _ :: rest => countMeta k rest

/-! ### ConfigurationOptions (lines 17-27) -/

/-- The tagged union `ConfigurationOptions`: exactly one of `sdkVersion`
and `runtimeVersion` is present, together with `updateUrl`. -/
inductive COpts where
  | sdk (v url : String)
  | runtime (v url : String)
  deriving DecidableEq, Repr

/-- The `updateUrl` field of either variant. -/
def COpts.url : COpts → String
  | COpts.sdk _ u => u
  | COpts.runtime _ u => u

/-- A valid `ConfigurationOptions` per the spec's §3 invariant: the present
version field is a truthy (non-empty) string. -/
def COpts.valid : COpts → Prop
  | COpts.sdk v _ => v ≠ ""
  | COpts.runtime v _ => v ≠ ""

instance (o : COpts) : Decidable o.valid := by
  cases o <;> dsimp [COpts.valid] <;> infer_instance

/-! ### Project state -/

/-- Files the module writes; entries of the write log. -/
inductive FileRef where
  | gradle
  | manifest
  | pbxproj
  | expoPlist
  deriving DecidableEq, Repr

/-- The on-disk and configuration state of one project, as read and
written by the module.  `runtimeVersionCfg` is `exp.runtimeVersion`;
`sdkVersionCfg` is the result of `getExpoSDKVersion` (`none` models its
throw).  `manifest` is the child list of the manifest's `application`
element; `bundleScript` is the shell script of the "Bundle React Native
code and images" build phase (`none` models an absent phase);
`expoPlist` is the parsed `Expo.plist` dictionary (`none`: file absent). -/
structure ProjectState where
  projectDir : String
  hasExpoUpdates : Bool
  runtimeVersionCfg : Option String
  sdkVersionCfg : Option String
  slug : String
  username : String
  gradle : Option String
  manifest : Option (List MNode)
  hasPbxproj : Bool
  bundleScript : Option String
  expoPlist : Option (List (String × String))
  log : List FileRef
  deriving Repr

/-- `path.join(projectDir, 'android', 'app', 'build.gradle')` (line 318). -/
def androidBuildGradlePath (st : ProjectState) : String :=
  st.projectDir ++ "/android/app/build.gradle"

/-- `path.join(projectDir, 'android', 'app', 'src', 'main',
'AndroidManifest.xml')` (lines 343-350). -/
def androidManifestPath (st : ProjectState) : String :=
  st.projectDir ++ "/android/app/src/main/AndroidManifest.xml"

/-- The update URL of line 104:
`https://exp.host/@${user.username}/${exp.slug}`. -/
def expUpdateUrl (st : ProjectState) : String :=
  "https://exp.host/@" ++ st.username ++ "/" ++ st.slug

/-- `isExpoUpdatesInstalled` (lines 127-131). -/
def isExpoUpdatesInstalled (st : ProjectState) : Bool :=
  st.hasExpoUpdates

/-! ### Options resolver (lines 100-125) -/

/-- The SDK-version fallback of `getConfigurationOptions` (lines 113-124):
`getExpoSDKVersion` succeeding yields the sdk variant, its throw is caught
and replaced by the missing-configuration error. -/
def getConfigurationOptionsSdkBranch (st : ProjectState) : Except String COpts :=
  match st.sdkVersionCfg with
  | some sv => Except.ok (COpts.sdk sv (expUpdateUrl st))
  | none => Except.error missingConfigMsg

/-- `getConfigurationOptions` (lines 100-125): a truthy
`exp.runtimeVersion` wins, otherwise the SDK-version fallback. -/
def getConfigurationOptions (st : ProjectState) : Except String COpts :=
  match st.runtimeVersionCfg with
  | some rv =>
    if rv = "" then getConfigurationOptionsSdkBranch st
    else Except.ok (COpts.runtime rv (expUpdateUrl st))
  | none => getConfigurationOptionsSdkBranch st

/-! ### Android patcher (lines 266-340, 366-423) -/

/-- `hasBuildScriptApply` (lines 333-340): some line equals the include
line in double- or single-quoted form. -/
def hasBuildScriptApply (buildGradleContent : String) : Bool :=
  (gradleLines buildGradleContent).any fun line =>
    line == androidBuildScript || line == singleQuoteVariant androidBuildScript

/-- `isAndroidMetadataSet` (lines 366-386).  The JS ternary on
`runtimeVersion` is truthiness: a present-but-empty runtime version falls
through to the sdk comparison against an `undefined` sdk version, which is
never strict-equal to an attribute value, hence `false`. -/
def isAndroidMetadataSet (o : COpts) (children : List MNode) : Bool :=
  (match o with
   | COpts.runtime rv _ =>
     if rv = "" then false
     else decide (findMeta ExpoAndroidMetadata.RUNTIME_VERSION children = some rv)
   | COpts.sdk sv _ =>
     decide (findMeta ExpoAndroidMetadata.SDK_VERSION children = some sv))
  && decide (findMeta ExpoAndroidMetadata.UPDATE_URL children = some o.url)

/-- The metadata synchronisation of `configureUpdatesAndroid`
(lines 281-293): on a truthy runtime version remove the SDK record and
upsert the runtime record (and conversely), then always upsert the update
URL.  A falsy version field matches neither `if` branch in the source. -/
def androidMetadataSync (o : COpts) (children : List MNode) : List MNode :=
  let c :=
    match o with
    | COpts.runtime rv _ =>
      if rv = "" then children
      else
        updateAndroidMetadata ExpoAndroidMetadata.RUNTIME_VERSION rv
          (removeAndroidMetadata ExpoAndroidMetadata.SDK_VERSION children)
    | COpts.sdk sv _ =>
      if sv = "" then children
      else
        updateAndroidMetadata ExpoAndroidMetadata.SDK_VERSION sv
          (removeAndroidMetadata ExpoAndroidMetadata.RUNTIME_VERSION children)
  updateAndroidMetadata ExpoAndroidMetadata.UPDATE_URL o.url c

/-- The gradle phase of `configureUpdatesAndroid` (lines 270-275): append
the include block when no line already matches. -/
def applyGradlePhase (g : String) (st : ProjectState) : ProjectState :=
  if hasBuildScriptApply g then st
  else { st with gradle := some (g ++ gradleAppendBlock), log := st.log ++ [FileRef.gradle] }

/-- The manifest phase of `configureUpdatesAndroid` (lines 277-296):
rewrite the manifest only when the metadata is not already set. -/
def androidManifestPhase (o : COpts) (st : ProjectState) :
    Except (String × ProjectState) ProjectState :=
  match st.manifest with
  | none => Except.error (manifestNotFoundMsg (androidManifestPath st), st)
  | some children =>
    if isAndroidMetadataSet o children then Except.ok st
    else
      Except.ok
        { st with
          manifest := some (androidMetadataSync o children)
          log := st.log ++ [FileRef.manifest] }

/-- `configureUpdatesAndroid` (lines 266-297).  An error carries the disk
state at the moment of the throw (earlier writes persist). -/
def configureUpdatesAndroid (o : COpts) (st : ProjectState) :
    Except (String × ProjectState) ProjectState :=
  match st.gradle with
  | none => Except.error (gradleNotFoundMsg (androidBuildGradlePath st), st)
  | some g => androidManifestPhase o (applyGradlePhase g st)

/-- `isUpdatesConfiguredAndroid` (lines 299-315). -/
def isUpdatesConfiguredAndroid (o : COpts) (st : ProjectState) : Except String Bool :=
  match st.gradle with
  | none => Except.error (gradleNotFoundMsg (androidBuildGradlePath st))
  | some g =>
    if hasBuildScriptApply g then
      match st.manifest with
      | none => Except.error (manifestNotFoundMsg (androidManifestPath st))
      | some children => Except.ok (isAndroidMetadataSet o children)
    else Except.ok false

/-! ### iOS patcher (lines 133-264) -/

/-- First-match lookup in a plist dictionary. -/
def plistLookup (k : String) : List (String × String) → Option String
  | [] => none
  | (k', v) :: rest => if k' = k then some v else plistLookup k rest

/-- Lines 141-146: append the include fragment immediately before the
closing quote of the build-phase script when it is not yet contained. -/
def ensureBundleScript (script : String) : String :=
  if strIncludes script iOSBuildScript then script
  else stripTrailingQuote script ++ iOSBuildScript ++ "\x5cn\x22"

/-- The `items` object of lines 150-158, through the swapped
`ExpoIOSMetadata` mapping.  A falsy runtime version selects the ternary's
else-object whose version entry is `undefined`, modelled by omission. -/
def iosItems : COpts → List (String × String)
  | COpts.runtime rv url =>
    if rv = "" then [(ExpoIOSMetadata.UPDATE_URL, url)]
    else [(ExpoIOSMetadata.RUNTIME_VERSION, rv), (ExpoIOSMetadata.UPDATE_URL, url)]
  | COpts.sdk sv url =>
    [(ExpoIOSMetadata.SDK_VERSION, sv), (ExpoIOSMetadata.UPDATE_URL, url)]

/-- Line 148: `fs.writeFile(pbxprojPath, project.writeSync())` — the
project graph, with the possibly-extended build-phase script, is written
back unconditionally. -/
def writePbxprojPhase (script : String) (st : ProjectState) : ProjectState :=
  { st with
    bundleScript := some (ensureBundleScript script)
    log := st.log ++ [FileRef.pbxproj] }

/-- Lines 160-167: `plist.build(items)` is written to `Expo.plist`,
replacing whatever the file previously held. -/
def writeExpoPlistPhase (o : COpts) (st : ProjectState) : ProjectState :=
  { st with
    expoPlist := some (iosItems o)
    log := st.log ++ [FileRef.expoPlist] }

/-- `configureUpdatesIOS` (lines 133-169).  The trailing `gitAddAsync` is
an external collaborator and not part of the disk state. -/
def configureUpdatesIOS (o : COpts) (st : ProjectState) :
    Except (String × ProjectState) ProjectState :=
  if st.hasPbxproj = false then Except.error (xcodeProjectNotFoundMsg, st)
  else
    match st.bundleScript with
    | none => Except.error (bundlePhaseNotFoundMsg, st)
    | some script => Except.ok (writeExpoPlistPhase o (writePbxprojPhase script st))

/-- The plist comparison of `isUpdatesConfiguredIOS` (lines 192-197); a
falsy runtime version makes the source compare the SDK entry against
`undefined`, i.e. require the key to be absent. -/
def iosVersionAndUrlMatch (o : COpts) (dict : List (String × String)) : Bool :=
  (match o with
   | COpts.runtime rv _ =>
     if rv = "" then (plistLookup ExpoIOSMetadata.SDK_VERSION dict).isNone
     else decide (plistLookup ExpoIOSMetadata.RUNTIME_VERSION dict = some rv)
   | COpts.sdk sv _ =>
     decide (plistLookup ExpoIOSMetadata.SDK_VERSION dict = some sv))
  && decide (plistLookup ExpoIOSMetadata.UPDATE_URL dict = some o.url)

/-- `isUpdatesConfiguredIOS` (lines 171-202). -/
def isUpdatesConfiguredIOS (o : COpts) (st : ProjectState) : Except String Bool :=
  if st.hasPbxproj = false then Except.error xcodeProjectNotFoundMsg
  else
    match st.bundleScript with
    | none => Except.error bundlePhaseNotFoundMsg
    | some script =>
      if strIncludes script iOSBuildScript then
        match st.expoPlist with
        | none => Except.ok false
        | some dict => Except.ok (iosVersionAndUrlMatch o dict)
      else Except.ok false

/-! ### Top level (lines 45-98) -/

/-- `configureUpdatesAsync` (lines 58-98), up to the git/commit epilogue,
which the spec treats as an external collaborator.  The error branch
carries the disk state at the moment of failure: earlier writes persist,
nothing is reverted. -/
def configureUpdatesAsyncRun (st : ProjectState) :
    Except (String × ProjectState) ProjectState :=
  if isExpoUpdatesInstalled st = false then Except.ok st
  else
    match getConfigurationOptions st with
    | Except.error e => Except.error (e, st)
    | Except.ok o =>
      match configureUpdatesAndroid o st with
      | Except.error es => Except.error es
      | Except.ok st1 => configureUpdatesIOS o st1

/-- `isUpdatesConfigured` (lines 45-56); `&&` short-circuits, so the iOS
check runs only when the Android check returned true. -/
def isUpdatesConfigured (st : ProjectState) : Except String Bool :=
  if isExpoUpdatesInstalled st = false then Except.ok true
  else
    match getConfigurationOptions st with
    | Except.error e => Except.error e
    | Except.ok o =>
      match isUpdatesConfiguredAndroid o st with
      | Except.error e => Except.error e
      | Except.ok false => Except.ok false
      | Except.ok true => isUpdatesConfiguredIOS o st

/-- The disk state an `Except`-valued run leaves behind: the new state on
success, the state carried by the error on failure. -/
def resultState : Except (String × ProjectState) ProjectState → ProjectState
  | Except.ok s => s
  | Except.error (_, s) => s

/-! ### The unnamed parallel variant (src/unnamed/part_000)

The variant delegates metadata handling to `@expo/config`'s
`AndroidConfig`/`IOSConfig`, whose code is not part of this repository;
those collaborators are modelled from the spec where noted.  Its project
state is the same `ProjectState`; `getCurrentUsernameAsync` is the same
`username` field, and the claims compare the two implementations at equal
resolved identity, username and slug. -/

/-- A JavaScript value as it flows through the variant's metadata check: a
string, a found manifest element, or `undefined`. -/
inductive JSVal where
  | str (s : String)
  | elem (nm v : String)
  | undef
  deriving DecidableEq, Repr

/-- JS strict equality `===` between such a value and a string: only a
string compares equal; an element object or `undefined` never does. -/
def jsStrictEqStr : JSVal → String → Bool
  | JSVal.str t, s => t == s
  | JSVal.elem _ _, _ => false
  | JSVal.undef, _ => false

/-- `getAndroidMetadataValue` (part_000 lines 362-370).  Modelled from the
spec: `AndroidConfig.Manifest.readAndroidManifestAsync` parses the
manifest into a JSON document whose `meta-data` entries we take from the
manifest's `application` children.  Despite its `string | undefined`
annotation the source returns the result of `.find`, i.e. the matching
ELEMENT itself (or `undefined`), not its value attribute. -/
def getAndroidMetadataValue (k : String) (children : List MNode) : JSVal :=
  match findMetaNode k children with
  | some (nm, v) => JSVal.elem nm v
  | none => JSVal.undef

/-- `isMetadataSetAndroid` (part_000 lines 329-360).  Modelled from the
spec: `AndroidConfig.Updates.getSDKVersion`/`getRuntimeVersion` read the
corresponding fields of the project configuration,
`AndroidConfig.Updates.getUpdateUrl` builds the canonical update URL from
username and slug, and `AndroidConfig.Updates.Config` holds the same
Android `meta-data` key names.  The comparisons are JS strict equality
between `getAndroidMetadataValue`'s result and the expected strings. -/
def isMetadataSetAndroid (st : ProjectState) (children : List MNode) : Bool :=
  let currentUpdateUrl := expUpdateUrl st
  (if jsTruthyOpt st.runtimeVersionCfg then
    jsStrictEqStr
      (getAndroidMetadataValue ExpoAndroidMetadata.RUNTIME_VERSION children)
      (st.runtimeVersionCfg.getD "")
   else
    jsTruthyOpt st.sdkVersionCfg &&
      jsStrictEqStr
        (getAndroidMetadataValue ExpoAndroidMetadata.SDK_VERSION children)
        (st.sdkVersionCfg.getD ""))
  && jsTruthy currentUpdateUrl
  && jsStrictEqStr
      (getAndroidMetadataValue ExpoAndroidMetadata.UPDATE_URL children)
      currentUpdateUrl

/-- `isUpdatesConfiguredAndroidAsync` (part_000 lines 267-289). -/
def isUpdatesConfiguredAndroidAsync (st : ProjectState) : Except String Bool :=
  match st.gradle with
  | none => Except.error (gradleNotFoundMsg (androidBuildGradlePath st))
  | some g =>
    if hasBuildScriptApply g then
      match st.manifest with
      | none => Except.error (manifestNotFoundMsg (androidManifestPath st))
      | some children => Except.ok (isMetadataSetAndroid st children)
    else Except.ok false

namespace IOSConfigUpdates

/-- `IOSConfig.Updates.Config.SDK_VERSION`.  Modelled from the spec: the
plist key name for the SDK version. -/
def SDK_VERSION : String := "EXUpdatesSDKVersion"

/-- `IOSConfig.Updates.Config.RUNTIME_VERSION`.  Modelled from the spec:
the plist key name for the runtime version. -/
def RUNTIME_VERSION : String := "EXUpdatesRuntimeVersion"

/-- `IOSConfig.Updates.Config.UPDATE_URL`.  Modelled from the spec: the
plist key name for the update URL. -/
def UPDATE_URL : String := "EXUpdatesURL"

end IOSConfigUpdates

/-- `isMetadataSetIOS` (part_000 lines 159-176).  Modelled from the spec:
the `IOSConfig.Updates` getters read the configuration fields and build
the canonical update URL. -/
def isMetadataSetIOS (st : ProjectState) (dict : List (String × String)) : Bool :=
  let currentUpdateUrl := expUpdateUrl st
  (if jsTruthyOpt st.runtimeVersionCfg then
    decide (plistLookup IOSConfigUpdates.RUNTIME_VERSION dict = st.runtimeVersionCfg)
   else
    jsTruthyOpt st.sdkVersionCfg &&
      decide (plistLookup IOSConfigUpdates.SDK_VERSION dict = st.sdkVersionCfg))
  && jsTruthy currentUpdateUrl
  && decide (plistLookup IOSConfigUpdates.UPDATE_URL dict = some currentUpdateUrl)

/-- The variant's `isUpdatesConfiguredIOS` (part_000 lines 134-157),
renamed with an `Async` suffix to avoid the homonymous function of
`expoUpdates.ts`. -/
def isUpdatesConfiguredIOSAsync (st : ProjectState) : Except String Bool :=
  if st.hasPbxproj = false then Except.error xcodeProjectNotFoundMsg
  else
    match st.bundleScript with
    | none => Except.error bundlePhaseNotFoundMsg
    | some script =>
      if strIncludes script iOSBuildScript then
        match st.expoPlist with
        | none => Except.ok false
        | some dict => Except.ok (isMetadataSetIOS st dict)
      else Except.ok false

/-- The failure condition of `getConfigurationOptionsAsync` (part_000
lines 76-90): both `exp.runtimeVersion` and `exp.sdkVersion` falsy. -/
def getConfigurationOptionsAsyncCheck (st : ProjectState) : Except String Unit :=
  if !jsTruthyOpt st.runtimeVersionCfg && !jsTruthyOpt st.sdkVersionCfg then
    Except.error missingConfigMsg
  else Except.ok ()

/-- `isUpdatesConfiguredAsync` (part_000 lines 20-31), the variant's
top-level check. -/
def isUpdatesConfiguredAsync (st : ProjectState) : Except String Bool :=
  if isExpoUpdatesInstalled st = false then Except.ok true
  else
    match getConfigurationOptionsAsyncCheck st with
    | Except.error e => Except.error e
    | Except.ok _ =>
      match isUpdatesConfiguredAndroidAsync st with
      | Except.error e => Except.error e
      | Except.ok false => Except.ok false
      | Except.ok true => isUpdatesConfiguredIOSAsync st

/-! ### Concrete demonstration states used by witnesses -/

/-- A project with `expo-updates` declared, a runtime version, and
unconfigured native files. -/
def demoState : ProjectState where
  projectDir := "/home/alice/proj"
  hasExpoUpdates := true
  runtimeVersionCfg := some "1.0.0"
  sdkVersionCfg := none
  slug := "myapp"
  username := "alice"
  gradle := some "apply plugin: \x22com.android.application\x22"
  manifest := some [MNode.other "\n    "]
  hasPbxproj := true
  bundleScript := some "\x22export NODE_BINARY=node\x5cn../node_modules/react-native/scripts/react-native-xcode.sh\x5cn\x22"
  expoPlist := none
  log := []

/-- `demoState` after one successful `configureUpdatesAsync`. -/
def demoConfigured : ProjectState :=
  resultState (configureUpdatesAsyncRun demoState)

/-- A project like `demoState` but declaring an SDK version instead of a
runtime version. -/
def demoSdkState : ProjectState :=
  { demoState with runtimeVersionCfg := none, sdkVersionCfg := some "39.0.0" }

/-- A project declaring neither a runtime nor an SDK version. -/
def demoNoVersions : ProjectState :=
  { demoState with runtimeVersionCfg := none, sdkVersionCfg := none }

/-- A project whose `android/app/build.gradle` file does not exist. -/
def demoNoGradle : ProjectState :=
  { demoState with gradle := none }

/-- A project whose `Expo.plist` already exists and holds an unrelated
key. -/
def priorPlistState : ProjectState :=
  { demoState with expoPlist := some [("SomeUnrelatedKey", "untouched")] }

/-- A project whose build-phase shell script already contains the
expo-updates include fragment. -/
def configuredScriptState : ProjectState :=
  { demoState with
    bundleScript := some ("\x22export NODE_BINARY=node\x5cn" ++ iOSBuildScript ++ "\x5cn\x22") }

/-! ### Lemmas: substring search -/

theorem isPrefixOf_append_self (l t : List Char) : List.isPrefixOf l (l ++ t) = true := by
  induction l with
  | nil => simp [List.isPrefixOf]
  | cons a as ih => simp [List.isPrefixOf, ih]

theorem listIncludes_mid (pat xs ys : List Char) :
    listIncludes pat (xs ++ (pat ++ ys)) = true := by
  induction xs with
  | nil =>
    cases hp : pat with
    | nil => cases ys <;> simp [listIncludes, List.isPrefixOf]
    | cons p ps =>
      subst hp
      simp only [List.nil_append, List.cons_append, listIncludes, List.append_eq]
      rw [← List.cons_append, isPrefixOf_append_self, Bool.true_or]
  | cons c cs ih =>
    simp [listIncludes, ih]

theorem strIncludes_append_mid (a b : String) :
    strIncludes (a ++ iOSBuildScript ++ b) iOSBuildScript = true := by
  have h : (a ++ iOSBuildScript ++ b).data =
      a.data ++ (iOSBuildScript.data ++ b.data) := by
    simp [String.data_append, List.append_assoc]
  rw [strIncludes, h]
  exact listIncludes_mid _ _ _

theorem ensureBundleScript_includes (s : String) :
    strIncludes (ensureBundleScript s) iOSBuildScript = true := by
  rw [ensureBundleScript]
  by_cases h : strIncludes s iOSBuildScript = true
  · rw [if_pos h]; exact h
  · rw [if_neg h]
    exact strIncludes_append_mid (stripTrailingQuote s) "\x5cn\x22"

theorem ensureBundleScript_of_includes {s : String}
    (h : strIncludes s iOSBuildScript = true) : ensureBundleScript s = s := by
  rw [ensureBundleScript, if_pos h]

/-! ### Lemmas: gradle line splitting -/

theorem splitNl_ne_nil (l : List Char) : splitNl l ≠ [] := by
  cases l with
  | nil => simp [splitNl]
  | cons c rest =>
    rw [splitNl]
    by_cases h : c = '\n'
    · simp [h]
    · rcases hr : splitNl rest with _ | ⟨hd, tl⟩ <;> simp [h, hr]

theorem splitNl_append_newline (xs ys : List Char) :
    ∃ z zs, splitNl (xs ++ '\n' :: ys) = (z :: zs) ++ splitNl ys := by
  induction xs with
  | nil => exact ⟨[], [], rfl⟩
  | cons c cs ih =>
    obtain ⟨z, zs, hzs⟩ := ih
    rw [List.cons_append, splitNl]
    by_cases h : c = '\n'
    · exact ⟨[], z :: zs, by simp [h, hzs]⟩
    · rcases hr : splitNl (cs ++ '\n' :: ys) with _ | ⟨hd, tl⟩
      · exact absurd hr (splitNl_ne_nil _)
      · rw [hr] at hzs
        simp at hzs
        obtain ⟨h1, h2⟩ := hzs
        exact ⟨c :: z, zs, by simp [h, h1, h2]⟩

theorem hasBuildScriptApply_append_block (g : String) :
    hasBuildScriptApply (g ++ gradleAppendBlock) = true := by
  have hblock : gradleAppendBlock.data =
      '\n' :: ("// Integration with Expo updates\n" ++ androidBuildScript ++ "\n").data := by
    decide
  have hdata : (g ++ gradleAppendBlock).data =
      g.data ++ '\n' :: ("// Integration with Expo updates\n" ++ androidBuildScript ++ "\n").data := by
    rw [String.data_append, hblock]
  rw [hasBuildScriptApply, gradleLines, hdata]
  obtain ⟨z, zs, hsplit⟩ :=
    splitNl_append_newline g.data
      ("// Integration with Expo updates\n" ++ androidBuildScript ++ "\n").data
  rw [hsplit, List.map_append]
  refine List.any_eq_true.mpr ⟨androidBuildScript, List.mem_append_right _ ?_, by simp⟩
  decide

/-! ### Lemmas: manifest metadata records -/

theorem findMeta_append (k : String) (a b : List MNode) :
    findMeta k (a ++ b) =
      match findMeta k a with
      | some v => some v
      | none => findMeta k b := by
  induction a with
  | nil => simp [findMeta]
  | cons n rest ih =>
    cases n with
    | meta nm v =>
      by_cases h : nm = k
      · simp [findMeta, h]
      · simp [findMeta, h, ih]
    | other s => simp [findMeta, ih]

theorem findMeta_setMetaValue_self {k : String} {c : List MNode} {w : String}
    (h : findMeta k c = some w) (v : String) :
    findMeta k (setMetaValue k v c) = some v := by
  induction c with
  | nil => simp [findMeta] at h
  | cons n rest ih =>
    cases n with
    | meta nm w' =>
      by_cases hnm : nm = k
      · simp [setMetaValue, findMeta, hnm]
      · rw [findMeta, if_neg hnm] at h
        simp [setMetaValue, findMeta, hnm, ih h]
    | other s =>
      rw [findMeta] at h
      simp [setMetaValue, findMeta, ih h]

theorem findMeta_setMetaValue_ne {k k' : String} (h : k ≠ k') (v : String)
    (c : List MNode) : findMeta k (setMetaValue k' v c) = findMeta k c := by
  induction c with
  | nil => simp [setMetaValue]
  | cons n rest ih =>
    cases n with
    | meta nm w =>
      by_cases hnm : nm = k'
      · subst hnm
        simp [setMetaValue, findMeta, Ne.symm h, ih]
      · simp [setMetaValue, findMeta, hnm, ih]
    | other s => simp [setMetaValue, findMeta, ih]

theorem findMeta_update_self (k v : String) (c : List MNode) :
    findMeta k (updateAndroidMetadata k v c) = some v := by
  rw [updateAndroidMetadata]
  cases hf : findMeta k c with
  | some w => exact findMeta_setMetaValue_self hf v
  | none =>
    rw [findMeta_append]
    simp [hf, findMeta]

theorem findMeta_update_ne {k k' : String} (h : k ≠ k') (v : String)
    (c : List MNode) : findMeta k (updateAndroidMetadata k' v c) = findMeta k c := by
  rw [updateAndroidMetadata]
  cases hf : findMeta k' c with
  | some w => exact findMeta_setMetaValue_ne h v c
  | none =>
    rw [findMeta_append]
    cases hg : findMeta k c with
    | some w => simp [hg]
    | none => simp [hg, findMeta, Ne.symm h]

theorem findMeta_remove_none {k : String} (k' : String) {c : List MNode}
    (h : findMeta k c = none) :
    findMeta k (removeAndroidMetadata k' c) = none := by
  induction c with
  | nil => simp [removeAndroidMetadata, findMeta]
  | cons n rest ih =>
    cases n with
    | meta nm w =>
      rw [findMeta] at h
      by_cases hnm : nm = k
      · simp [hnm] at h
      · rw [if_neg hnm] at h
        by_cases hk' : nm = k'
        · simpa [removeAndroidMetadata, hk'] using h
        · simp [removeAndroidMetadata, hk', findMeta, hnm, ih h]
    | other s =>
      rw [findMeta] at h
      simp [removeAndroidMetadata, findMeta, ih h]

theorem countMeta_eq_zero {k : String} {c : List MNode} :
    countMeta k c = 0 ↔ findMeta k c = none := by
  induction c with
  | nil => simp [countMeta, findMeta]
  | cons n rest ih =>
    cases n with
    | meta nm w =>
      by_cases hnm : nm = k
      · simp [countMeta, findMeta, hnm]
      · simp [countMeta, findMeta, hnm, ih]
    | other s => simp [countMeta, findMeta, ih]

theorem findMeta_remove_self_of_le_one {k : String} {c : List MNode}
    (h : countMeta k c ≤ 1) :
    findMeta k (removeAndroidMetadata k c) = none := by
  induction c with
  | nil => simp [removeAndroidMetadata, findMeta]
  | cons n rest ih =>
    cases n with
    | meta nm w =>
      by_cases hnm : nm = k
      · subst hnm
        rw [countMeta, if_pos rfl] at h
        have hrest : countMeta nm rest = 0 := by omega
        simp [removeAndroidMetadata, countMeta_eq_zero.mp hrest]
      · rw [countMeta, if_neg hnm, Nat.zero_add] at h
        simp [removeAndroidMetadata, hnm, findMeta, ih h]
    | other s =>
      rw [countMeta] at h
      simp [removeAndroidMetadata, findMeta, ih h]

theorem countMeta_append (k : String) (a b : List MNode) :
    countMeta k (a ++ b) = countMeta k a + countMeta k b := by
  induction a with
  | nil => simp [countMeta]
  | cons n rest ih =>
    cases n with
    | meta nm w => simp [countMeta, ih]; omega
    | other s => simp [countMeta, ih]

theorem countMeta_setMetaValue (k k' v : String) (c : List MNode) :
    countMeta k (setMetaValue k' v c) = countMeta k c := by
  induction c with
  | nil => simp [setMetaValue]
  | cons n rest ih =>
    cases n with
    | meta nm w =>
      by_cases hk' : nm = k'
      · simp [setMetaValue, hk', countMeta]
      · simp [setMetaValue, hk', countMeta, ih]
    | other s => simp [setMetaValue, countMeta, ih]

theorem countMeta_remove_ne {k k' : String} (h : k ≠ k') (c : List MNode) :
    countMeta k (removeAndroidMetadata k' c) = countMeta k c := by
  induction c with
  | nil => simp [removeAndroidMetadata]
  | cons n rest ih =>
    cases n with
    | meta nm w =>
      by_cases hk' : nm = k'
      · subst hk'
        simp [removeAndroidMetadata, countMeta, Ne.symm h]
      · simp [removeAndroidMetadata, hk', countMeta, ih]
    | other s => simp [removeAndroidMetadata, countMeta, ih]

theorem countMeta_update_ne {k k' : String} (h : k ≠ k') (v : String)
    (c : List MNode) :
    countMeta k (updateAndroidMetadata k' v c) = countMeta k c := by
  rw [updateAndroidMetadata]
  cases hf : findMeta k' c with
  | some w => exact countMeta_setMetaValue k k' v c
  | none =>
    rw [countMeta_append]
    simp [countMeta, Ne.symm h]

theorem countMeta_update_self_le {k : String} {c : List MNode}
    (h : countMeta k c ≤ 1) (v : String) :
    countMeta k (updateAndroidMetadata k v c) ≤ 1 := by
  rw [updateAndroidMetadata]
  cases hf : findMeta k c with
  | some w => rw [countMeta_setMetaValue]; exact h
  | none =>
    rw [countMeta_append]
    have : countMeta k c = 0 := countMeta_eq_zero.mpr hf
    simp [this, countMeta]

theorem aRuntime_ne_aUrl :
    ExpoAndroidMetadata.RUNTIME_VERSION ≠ ExpoAndroidMetadata.UPDATE_URL := by decide

theorem aSdk_ne_aUrl :
    ExpoAndroidMetadata.SDK_VERSION ≠ ExpoAndroidMetadata.UPDATE_URL := by decide

theorem aSdk_ne_aRuntime :
    ExpoAndroidMetadata.SDK_VERSION ≠ ExpoAndroidMetadata.RUNTIME_VERSION := by decide

/-! ### Lemmas: metadata synchronisation postconditions -/

theorem isAndroidMetadataSet_sync {o : COpts} (h : o.valid) (c : List MNode) :
    isAndroidMetadataSet o (androidMetadataSync o c) = true := by
  cases o with
  | runtime rv url =>
    have hrv : rv ≠ "" := h
    simp only [androidMetadataSync, isAndroidMetadataSet, COpts.url, if_neg hrv]
    rw [findMeta_update_ne aRuntime_ne_aUrl, findMeta_update_self, findMeta_update_self]
    simp
  | sdk sv url =>
    have hsv : sv ≠ "" := h
    simp only [androidMetadataSync, isAndroidMetadataSet, COpts.url, if_neg hsv]
    rw [findMeta_update_ne aSdk_ne_aUrl, findMeta_update_self, findMeta_update_self]
    simp

theorem iosVersionAndUrlMatch_iosItems {o : COpts} (h : o.valid) :
    iosVersionAndUrlMatch o (iosItems o) = true := by
  cases o with
  | runtime rv url =>
    have hrv : rv ≠ "" := h
    simp [iosItems, iosVersionAndUrlMatch, if_neg hrv, plistLookup, COpts.url,
      ExpoIOSMetadata.RUNTIME_VERSION, ExpoIOSMetadata.UPDATE_URL]
  | sdk sv url =>
    simp [iosItems, iosVersionAndUrlMatch, plistLookup, COpts.url,
      ExpoIOSMetadata.SDK_VERSION, ExpoIOSMetadata.UPDATE_URL]

/-! ### Lemmas: decomposing successful runs -/

theorem getConfigurationOptions_congr {a b : ProjectState}
    (h1 : a.runtimeVersionCfg = b.runtimeVersionCfg)
    (h2 : a.sdkVersionCfg = b.sdkVersionCfg)
    (h3 : a.username = b.username) (h4 : a.slug = b.slug) :
    getConfigurationOptions a = getConfigurationOptions b := by
  simp only [getConfigurationOptions, getConfigurationOptionsSdkBranch, expUpdateUrl,
    h1, h2, h3, h4]

theorem applyGradlePhase_fields (g : String) (st : ProjectState) :
    (applyGradlePhase g st).gradle =
      (if hasBuildScriptApply g then st.gradle else some (g ++ gradleAppendBlock)) ∧
    (applyGradlePhase g st).manifest = st.manifest ∧
    (applyGradlePhase g st).projectDir = st.projectDir ∧
    (applyGradlePhase g st).hasExpoUpdates = st.hasExpoUpdates ∧
    (applyGradlePhase g st).runtimeVersionCfg = st.runtimeVersionCfg ∧
    (applyGradlePhase g st).sdkVersionCfg = st.sdkVersionCfg ∧
    (applyGradlePhase g st).slug = st.slug ∧
    (applyGradlePhase g st).username = st.username ∧
    (applyGradlePhase g st).hasPbxproj = st.hasPbxproj ∧
    (applyGradlePhase g st).bundleScript = st.bundleScript ∧
    (applyGradlePhase g st).expoPlist = st.expoPlist := by
  rw [applyGradlePhase]
  by_cases hb : hasBuildScriptApply g <;> simp [hb]

theorem androidManifestPhase_ok {o : COpts} {st st1 : ProjectState}
    (h : androidManifestPhase o st = Except.ok st1) :
    (∃ m, st.manifest = some m ∧
        st1.manifest = if isAndroidMetadataSet o m then some m
          else some (androidMetadataSync o m)) ∧
    st1.gradle = st.gradle ∧
    st1.projectDir = st.projectDir ∧
    st1.hasExpoUpdates = st.hasExpoUpdates ∧
    st1.runtimeVersionCfg = st.runtimeVersionCfg ∧
    st1.sdkVersionCfg = st.sdkVersionCfg ∧
    st1.slug = st.slug ∧
    st1.username = st.username ∧
    st1.hasPbxproj = st.hasPbxproj ∧
    st1.bundleScript = st.bundleScript ∧
    st1.expoPlist = st.expoPlist := by
  cases hm : st.manifest with
  | none =>
    simp only [androidManifestPhase, hm] at h
    exact Except.noConfusion h
  | some m =>
    simp only [androidManifestPhase, hm] at h
    by_cases hs : isAndroidMetadataSet o m
    · rw [if_pos hs] at h
      simp only [Except.ok.injEq] at h
      subst h
      exact ⟨⟨m, rfl, by rw [if_pos hs]; exact hm⟩,
        rfl, rfl, rfl, rfl, rfl, rfl, rfl, rfl, rfl, rfl⟩
    · rw [if_neg hs] at h
      simp only [Except.ok.injEq] at h
      subst h
      exact ⟨⟨m, rfl, by rw [if_neg hs]⟩,
        rfl, rfl, rfl, rfl, rfl, rfl, rfl, rfl, rfl, rfl⟩

theorem configureUpdatesAndroid_ok {o : COpts} {st st1 : ProjectState}
    (h : configureUpdatesAndroid o st = Except.ok st1) :
    (∃ g, st.gradle = some g ∧
        st1.gradle = if hasBuildScriptApply g then some g else some (g ++ gradleAppendBlock)) ∧
    (∃ m, st.manifest = some m ∧
        st1.manifest = if isAndroidMetadataSet o m then some m
          else some (androidMetadataSync o m)) ∧
    st1.projectDir = st.projectDir ∧
    st1.hasExpoUpdates = st.hasExpoUpdates ∧
    st1.runtimeVersionCfg = st.runtimeVersionCfg ∧
    st1.sdkVersionCfg = st.sdkVersionCfg ∧
    st1.slug = st.slug ∧
    st1.username = st.username ∧
    st1.hasPbxproj = st.hasPbxproj ∧
    st1.bundleScript = st.bundleScript ∧
    st1.expoPlist = st.expoPlist := by
  obtain ⟨g, hg⟩ : ∃ g, st.gradle = some g := by
    cases hgr : st.gradle with
    | none =>
      simp only [configureUpdatesAndroid, hgr] at h
      exact Except.noConfusion h
    | some g => exact ⟨g, rfl⟩
  simp only [configureUpdatesAndroid, hg] at h
  obtain ⟨⟨m, hm1, hm2⟩, hgr, hp, hu, hr, hsd, hsl, hus, hpx, hbs, hpl⟩ :=
    androidManifestPhase_ok h
  obtain ⟨hag, ham, hap, hau, har, hasd, hasl, haus, hapx, habs, hapl⟩ :=
    applyGradlePhase_fields g st
  refine ⟨⟨g, hg, ?_⟩, ⟨m, ?_, hm2⟩, ?_, ?_, ?_, ?_, ?_, ?_, ?_, ?_, ?_⟩
  · rw [hgr, hag, hg]
  · rw [← ham]; exact hm1
  · rw [hp, hap]
  · rw [hu, hau]
  · rw [hr, har]
  · rw [hsd, hasd]
  · rw [hsl, hasl]
  · rw [hus, haus]
  · rw [hpx, hapx]
  · rw [hbs, habs]
  · rw [hpl, hapl]

theorem configureUpdatesIOS_ok {o : COpts} {st st2 : ProjectState}
    (h : configureUpdatesIOS o st = Except.ok st2) :
    st.hasPbxproj = true ∧
    (∃ s, st.bundleScript = some s ∧ st2.bundleScript = some (ensureBundleScript s)) ∧
    st2.expoPlist = some (iosItems o) ∧
    st2.log = st.log ++ [FileRef.pbxproj, FileRef.expoPlist] ∧
    st2.projectDir = st.projectDir ∧
    st2.hasExpoUpdates = st.hasExpoUpdates ∧
    st2.runtimeVersionCfg = st.runtimeVersionCfg ∧
    st2.sdkVersionCfg = st.sdkVersionCfg ∧
    st2.slug = st.slug ∧
    st2.username = st.username ∧
    st2.gradle = st.gradle ∧
    st2.manifest = st.manifest ∧
    st2.hasPbxproj = st.hasPbxproj := by
  by_cases hp : st.hasPbxproj = false
  · rw [configureUpdatesIOS, if_pos hp] at h
    exact Except.noConfusion h
  · rw [configureUpdatesIOS, if_neg hp] at h
    have hp' : st.hasPbxproj = true := by
      revert hp; cases st.hasPbxproj <;> simp
    obtain ⟨s, hs⟩ : ∃ s, st.bundleScript = some s := by
      cases hbs : st.bundleScript with
      | none =>
        simp only [hbs] at h
        exact Except.noConfusion h
      | some s => exact ⟨s, rfl⟩
    simp only [hs] at h
    simp only [Except.ok.injEq] at h
    subst h
    refine ⟨hp', ⟨s, hs, rfl⟩, rfl, ?_, rfl, rfl, rfl, rfl, rfl, rfl, rfl, rfl, rfl⟩
    simp [writeExpoPlistPhase, writePbxprojPhase]

theorem configureUpdatesAndroid_gradleApply {o : COpts} {st st1 : ProjectState}
    (h : configureUpdatesAndroid o st = Except.ok st1) :
    ∃ g1, st1.gradle = some g1 ∧ hasBuildScriptApply g1 = true := by
  obtain ⟨⟨g, hg, hres⟩, _⟩ := configureUpdatesAndroid_ok h
  by_cases hb : hasBuildScriptApply g
  · exact ⟨g, by rw [hres, if_pos hb], hb⟩
  · exact ⟨g ++ gradleAppendBlock, by rw [hres, if_neg hb],
      hasBuildScriptApply_append_block g⟩

theorem configureUpdatesAndroid_manifestSet {o : COpts} {st st1 : ProjectState}
    (h : configureUpdatesAndroid o st = Except.ok st1) (hv : o.valid) :
    ∃ m1, st1.manifest = some m1 ∧ isAndroidMetadataSet o m1 = true := by
  obtain ⟨_, ⟨m, hm, hres⟩, _⟩ := configureUpdatesAndroid_ok h
  by_cases hs : isAndroidMetadataSet o m
  · exact ⟨m, by rw [hres, if_pos hs], hs⟩
  · exact ⟨androidMetadataSync o m, by rw [hres, if_neg hs],
      isAndroidMetadataSet_sync hv m⟩

theorem isUpdatesConfiguredAndroid_true {o : COpts} {st : ProjectState}
    (hg : ∃ g, st.gradle = some g ∧ hasBuildScriptApply g = true)
    (hm : ∃ m, st.manifest = some m ∧ isAndroidMetadataSet o m = true) :
    isUpdatesConfiguredAndroid o st = Except.ok true := by
  obtain ⟨g, hg1, hg2⟩ := hg
  obtain ⟨m, hm1, hm2⟩ := hm
  simp only [isUpdatesConfiguredAndroid, hg1, hg2, if_true, hm1, hm2]

theorem isUpdatesConfiguredIOS_true {o : COpts} {st : ProjectState}
    (hp : st.hasPbxproj = true)
    (hs : ∃ s, st.bundleScript = some s ∧ strIncludes s iOSBuildScript = true)
    (hd : ∃ d, st.expoPlist = some d ∧ iosVersionAndUrlMatch o d = true) :
    isUpdatesConfiguredIOS o st = Except.ok true := by
  obtain ⟨s, hs1, hs2⟩ := hs
  obtain ⟨d, hd1, hd2⟩ := hd
  simp only [isUpdatesConfiguredIOS, hp, hs1, hs2, if_true, hd1, hd2]
  simp

theorem configureUpdatesAsyncRun_split {st st' : ProjectState} {o : COpts}
    (hdep : st.hasExpoUpdates = true)
    (hopts : getConfigurationOptions st = Except.ok o)
    (hrun : configureUpdatesAsyncRun st = Except.ok st') :
    ∃ st1, configureUpdatesAndroid o st = Except.ok st1 ∧
      configureUpdatesIOS o st1 = Except.ok st' := by
  rw [configureUpdatesAsyncRun] at hrun
  simp only [isExpoUpdatesInstalled, hdep, hopts] at hrun
  cases hca : configureUpdatesAndroid o st with
  | error es =>
    rw [hca] at hrun
    exact Except.noConfusion hrun
  | ok st1 =>
    rw [hca] at hrun
    exact ⟨st1, rfl, hrun⟩

/-- C1: for every project in which the expo-updates dependency is declared
and whose configuration resolves to a valid `ConfigurationOptions`, if
`configureUpdatesAsync` completes successfully then an immediately
following `isUpdatesConfigured` on the resulting on-disk state (gradle
script, Android manifest, pbxproj build-phase script, Expo.plist) returns
true. -/
theorem configure_then_isConfigured {st st' : ProjectState} {o : COpts}
    (hdep : st.hasExpoUpdates = true)
    (hopts : getConfigurationOptions st = Except.ok o)
    (hval : o.valid)
    (hrun : configureUpdatesAsyncRun st = Except.ok st') :
    isUpdatesConfigured st' = Except.ok true := by
  obtain ⟨st1, ha, hi⟩ := configureUpdatesAsyncRun_split hdep hopts hrun
  obtain ⟨hgA, hmA, hpA, huA, hrA, hsdA, hslA, husA, hpxA, hbsA, hplA⟩ :=
    configureUpdatesAndroid_ok ha
  obtain ⟨hpbx1, ⟨s, hs1, hs2⟩, hplist, hlog, hp', hu', hr', hsd', hsl', hus',
    hgr', hm', hpx'⟩ := configureUpdatesIOS_ok hi
  have hdep2 : st'.hasExpoUpdates = true := by rw [hu', huA, hdep]
  have hopts2 : getConfigurationOptions st' = Except.ok o := by
    rw [getConfigurationOptions_congr (a := st') (b := st) (by rw [hr', hrA])
      (by rw [hsd', hsdA]) (by rw [hus', husA]) (by rw [hsl', hslA])]
    exact hopts
  have handroid : isUpdatesConfiguredAndroid o st' = Except.ok true := by
    apply isUpdatesConfiguredAndroid_true
    · obtain ⟨g1, h1, h2⟩ := configureUpdatesAndroid_gradleApply ha
      exact ⟨g1, by rw [hgr', h1], h2⟩
    · obtain ⟨m1, h1, h2⟩ := configureUpdatesAndroid_manifestSet ha hval
      exact ⟨m1, by rw [hm', h1], h2⟩
  have hios : isUpdatesConfiguredIOS o st' = Except.ok true := by
    apply isUpdatesConfiguredIOS_true
    · rw [hpx', hpbx1]
    · exact ⟨ensureBundleScript s, hs2, ensureBundleScript_includes s⟩
    · exact ⟨iosItems o, hplist, iosVersionAndUrlMatch_iosItems hval⟩
  rw [isUpdatesConfigured]
  simp only [isExpoUpdatesInstalled, hdep2, hopts2, handroid]
  simpa using hios

/-- Witness for C1: the demonstration project, once configured, reports
itself as configured. -/
theorem configure_then_isConfigured_witness :
    isUpdatesConfigured demoConfigured = Except.ok true :=
  @configure_then_isConfigured demoState demoConfigured
    (COpts.runtime "1.0.0" "https://exp.host/@alice/myapp")
    rfl rfl (by decide) rfl

/-- C2: calling `configureUpdatesAsync` twice in succession on the same
project with the same options yields, after the second call, file contents
identical to those after the first call for every touched file
(build.gradle, AndroidManifest.xml, the pbxproj build-phase script,
Expo.plist): no duplicate include lines and no duplicate metadata records
are introduced. -/
theorem configure_idempotent {st a1 a2 : ProjectState} {o : COpts}
    (hdep : st.hasExpoUpdates = true)
    (hopts : getConfigurationOptions st = Except.ok o)
    (hval : o.valid)
    (h1 : configureUpdatesAsyncRun st = Except.ok a1)
    (h2 : configureUpdatesAsyncRun a1 = Except.ok a2) :
    a2.gradle = a1.gradle ∧ a2.manifest = a1.manifest ∧
    a2.bundleScript = a1.bundleScript ∧ a2.expoPlist = a1.expoPlist := by
  obtain ⟨b1, ha1, hi1⟩ := configureUpdatesAsyncRun_split hdep hopts h1
  obtain ⟨hgA, hmA, hpA, huA, hrA, hsdA, hslA, husA, hpxA, hbsA, hplA⟩ :=
    configureUpdatesAndroid_ok ha1
  obtain ⟨hpbx1, ⟨s, hs1, hs2⟩, hplist1, hlog1, hp1, hu1, hr1, hsd1, hsl1,
    hus1, hgr1, hm1, hpx1⟩ := configureUpdatesIOS_ok hi1
  have hdep1 : a1.hasExpoUpdates = true := by rw [hu1, huA, hdep]
  have hopts1 : getConfigurationOptions a1 = Except.ok o := by
    rw [getConfigurationOptions_congr (a := a1) (b := st) (by rw [hr1, hrA])
      (by rw [hsd1, hsdA]) (by rw [hus1, husA]) (by rw [hsl1, hslA])]
    exact hopts
  obtain ⟨b2, ha2, hi2⟩ := configureUpdatesAsyncRun_split hdep1 hopts1 h2
  have hg1 : ∃ g1, a1.gradle = some g1 ∧ hasBuildScriptApply g1 = true := by
    obtain ⟨g1, hh1, hh2⟩ := configureUpdatesAndroid_gradleApply ha1
    exact ⟨g1, by rw [hgr1, hh1], hh2⟩
  have hm1set : ∃ m1, a1.manifest = some m1 ∧ isAndroidMetadataSet o m1 = true := by
    obtain ⟨m1, hh1, hh2⟩ := configureUpdatesAndroid_manifestSet ha1 hval
    exact ⟨m1, by rw [hm1, hh1], hh2⟩
  obtain ⟨⟨g2, hg2, hg2res⟩, ⟨m2, hm2, hm2res⟩, hpB, huB, hrB, hsdB, hslB,
    husB, hpxB, hbsB, hplB⟩ := configureUpdatesAndroid_ok ha2
  have hb2g : b2.gradle = a1.gradle := by
    obtain ⟨g1, hga, hgapp⟩ := hg1
    rw [hga] at hg2
    obtain rfl : g1 = g2 := Option.some_inj.mp hg2
    rw [hg2res, if_pos hgapp, hga]
  have hb2m : b2.manifest = a1.manifest := by
    obtain ⟨m1, hma, hmset⟩ := hm1set
    rw [hma] at hm2
    obtain rfl : m1 = m2 := Option.some_inj.mp hm2
    rw [hm2res, if_pos hmset, hma]
  obtain ⟨hpbx2, ⟨s2, hs21, hs22⟩, hplist2, hlog2, hp2, hu2, hr2, hsd2, hsl2,
    hus2, hgr2, hm2', hpx2⟩ := configureUpdatesIOS_ok hi2
  refine ⟨by rw [hgr2, hb2g], by rw [hm2', hb2m], ?_, by rw [hplist2, hplist1]⟩
  have hs2a : a1.bundleScript = some (ensureBundleScript s) := hs2
  rw [hbsB, hs2a] at hs21
  obtain rfl : ensureBundleScript s = s2 := Option.some_inj.mp hs21
  rw [hs22, ensureBundleScript_of_includes (ensureBundleScript_includes s), hs2a]

/-- Witness for C2: running configure a second time on the already
configured demonstration project leaves every file content unchanged. -/
theorem configure_idempotent_witness :
    (resultState (configureUpdatesAsyncRun demoConfigured)).gradle = demoConfigured.gradle ∧
    (resultState (configureUpdatesAsyncRun demoConfigured)).manifest = demoConfigured.manifest ∧
    (resultState (configureUpdatesAsyncRun demoConfigured)).bundleScript = demoConfigured.bundleScript ∧
    (resultState (configureUpdatesAsyncRun demoConfigured)).expoPlist = demoConfigured.expoPlist :=
  @configure_idempotent demoState demoConfigured
    (resultState (configureUpdatesAsyncRun demoConfigured))
    (COpts.runtime "1.0.0" "https://exp.host/@alice/myapp")
    rfl rfl (by decide) rfl rfl

theorem resultState_androidManifestPhase_gradle (o : COpts) (s : ProjectState) :
    (resultState (androidManifestPhase o s)).gradle = s.gradle := by
  cases hm : s.manifest with
  | none => simp only [androidManifestPhase, hm, resultState]
  | some m =>
    simp only [androidManifestPhase, hm]
    by_cases hs : isAndroidMetadataSet o m
    · rw [if_pos hs]; rfl
    · rw [if_neg hs]; simp only [resultState]

theorem singleQuoteVariant_androidBuildScript :
    singleQuoteVariant androidBuildScript = androidBuildScriptSingleQuoted := by
  decide

/-- C6: `hasBuildScriptApply` returns true exactly when some line of the
Gradle build script equals the literal include line in its double-quoted
or single-quoted variant; when it returns true, `configureUpdatesAndroid`
leaves `build.gradle` byte-for-byte unchanged, and when it returns false
it appends exactly the two-line block (a comment line plus the include
line) to the end of the existing content. -/
theorem hasBuildScriptApply_spec (c : String) (o : COpts) (st : ProjectState)
    (hg : st.gradle = some c) :
    (hasBuildScriptApply c = true ↔
      ∃ l ∈ gradleLines c, l = androidBuildScript ∨ l = androidBuildScriptSingleQuoted) ∧
    (resultState (configureUpdatesAndroid o st)).gradle =
      (if hasBuildScriptApply c then some c else some (c ++ gradleAppendBlock)) := by
  constructor
  · rw [hasBuildScriptApply, List.any_eq_true]
    constructor
    · rintro ⟨l, hl, hp⟩
      rw [singleQuoteVariant_androidBuildScript] at hp
      exact ⟨l, hl, by simpa using hp⟩
    · rintro ⟨l, hl, hp⟩
      refine ⟨l, hl, ?_⟩
      rw [singleQuoteVariant_androidBuildScript]
      simpa using hp
  · simp only [configureUpdatesAndroid, hg]
    rw [resultState_androidManifestPhase_gradle]
    obtain ⟨hag, -⟩ := applyGradlePhase_fields c st
    rw [hag, hg]

/-- Witness for C6: the demonstration gradle script contains no include
line, so configure appends exactly the two-line block. -/
theorem hasBuildScriptApply_spec_witness :
    (hasBuildScriptApply "apply plugin: \x22com.android.application\x22" = true ↔
      ∃ l ∈ gradleLines "apply plugin: \x22com.android.application\x22",
        l = androidBuildScript ∨ l = androidBuildScriptSingleQuoted) ∧
    (resultState (configureUpdatesAndroid
        (COpts.runtime "1.0.0" "https://exp.host/@alice/myapp") demoState)).gradle =
      (if hasBuildScriptApply "apply plugin: \x22com.android.application\x22" then
        some "apply plugin: \x22com.android.application\x22"
      else some ("apply plugin: \x22com.android.application\x22" ++ gradleAppendBlock)) :=
  hasBuildScriptApply_spec "apply plugin: \x22com.android.application\x22"
    (COpts.runtime "1.0.0" "https://exp.host/@alice/myapp") demoState rfl

/-- C7: for a project with the expo-updates dependency declared (and a
resolvable configuration) but no file at `android/app/build.gradle`,
`configureUpdatesAsync` fails with a fatal error whose message names that
exact path, and the failure happens before any write: the disk state the
failure leaves behind is the input state, so the iOS-side files are
untouched (neither reverted nor otherwise affected). -/
theorem missing_gradle_fatal {st : ProjectState} {o : COpts}
    (hdep : st.hasExpoUpdates = true)
    (hopts : getConfigurationOptions st = Except.ok o)
    (hg : st.gradle = none) :
    configureUpdatesAsyncRun st =
      Except.error (gradleNotFoundMsg (androidBuildGradlePath st), st) ∧
    gradleNotFoundMsg (androidBuildGradlePath st) =
      "Couldn\x27t find gradle build script at " ++
        (st.projectDir ++ "/android/app/build.gradle") ∧
    (resultState (configureUpdatesAsyncRun st)).bundleScript = st.bundleScript ∧
    (resultState (configureUpdatesAsyncRun st)).expoPlist = st.expoPlist := by
  have h1 : configureUpdatesAsyncRun st =
      Except.error (gradleNotFoundMsg (androidBuildGradlePath st), st) := by
    rw [configureUpdatesAsyncRun]
    simp [isExpoUpdatesInstalled, hdep, hopts, configureUpdatesAndroid, hg]
  exact ⟨h1, rfl, by rw [h1]; rfl, by rw [h1]; rfl⟩

/-- Witness for C7: the demonstration project without a gradle file fails
with the descriptively-pathed error and leaves the iOS files untouched. -/
theorem missing_gradle_fatal_witness :
    configureUpdatesAsyncRun demoNoGradle =
      Except.error (gradleNotFoundMsg (androidBuildGradlePath demoNoGradle), demoNoGradle) ∧
    gradleNotFoundMsg (androidBuildGradlePath demoNoGradle) =
      "Couldn\x27t find gradle build script at " ++
        (demoNoGradle.projectDir ++ "/android/app/build.gradle") ∧
    (resultState (configureUpdatesAsyncRun demoNoGradle)).bundleScript = demoNoGradle.bundleScript ∧
    (resultState (configureUpdatesAsyncRun demoNoGradle)).expoPlist = demoNoGradle.expoPlist :=
  missing_gradle_fatal (o := COpts.runtime "1.0.0" "https://exp.host/@alice/myapp")
    rfl rfl rfl

/-- C8: `getConfigurationOptions` uses the runtime-version identity
whenever the project configuration declares (a truthy) `runtimeVersion`,
otherwise derives an SDK-version identity; if neither can be derived it
fails with a configuration error naming both required fields; and in every
successful case the returned `updateUrl` is the pure, deterministic string
`https://exp.host/@<username>/<slug>`. -/
theorem getConfigurationOptions_spec (st : ProjectState) :
    (∀ rv, st.runtimeVersionCfg = some rv → rv ≠ "" →
      getConfigurationOptions st = Except.ok (COpts.runtime rv (expUpdateUrl st))) ∧
    (jsTruthyOpt st.runtimeVersionCfg = false → ∀ sv, st.sdkVersionCfg = some sv →
      getConfigurationOptions st = Except.ok (COpts.sdk sv (expUpdateUrl st))) ∧
    (jsTruthyOpt st.runtimeVersionCfg = false → st.sdkVersionCfg = none →
      getConfigurationOptions st = Except.error missingConfigMsg) ∧
    strIncludes missingConfigMsg "runtimeVersion" = true ∧
    strIncludes missingConfigMsg "sdkVersion" = true ∧
    expUpdateUrl st = "https://exp.host/@" ++ st.username ++ "/" ++ st.slug ∧
    (∀ o, getConfigurationOptions st = Except.ok o → o.url = expUpdateUrl st) := by
  have hsdk : ∀ sv, st.sdkVersionCfg = some sv →
      getConfigurationOptionsSdkBranch st = Except.ok (COpts.sdk sv (expUpdateUrl st)) := by
    intro sv hsv
    simp only [getConfigurationOptionsSdkBranch, hsv]
  have hemptyTruthy : ∀ rv, st.runtimeVersionCfg = some rv →
      jsTruthyOpt st.runtimeVersionCfg = false → rv = "" := by
    intro rv hrv hft
    rw [hrv] at hft
    simpa [jsTruthyOpt, jsTruthy] using hft
  refine ⟨?_, ?_, ?_, by decide, by decide, rfl, ?_⟩
  · intro rv h1 h2
    simp only [getConfigurationOptions, h1, if_neg h2]
  · intro hft sv hsv
    cases hrv : st.runtimeVersionCfg with
    | none =>
      simp only [getConfigurationOptions, hrv]
      exact hsdk sv hsv
    | some rv =>
      simp only [getConfigurationOptions, hrv]
      rw [if_pos (hemptyTruthy rv hrv hft)]
      exact hsdk sv hsv
  · intro hft hsv
    have herr : getConfigurationOptionsSdkBranch st = Except.error missingConfigMsg := by
      simp only [getConfigurationOptionsSdkBranch, hsv]
    cases hrv : st.runtimeVersionCfg with
    | none =>
      simp only [getConfigurationOptions, hrv]
      exact herr
    | some rv =>
      simp only [getConfigurationOptions, hrv]
      rw [if_pos (hemptyTruthy rv hrv hft)]
      exact herr
  · intro o ho
    have hbranch : ∀ (h : getConfigurationOptionsSdkBranch st = Except.ok o),
        o.url = expUpdateUrl st := by
      intro h
      cases hsv : st.sdkVersionCfg with
      | none =>
        simp only [getConfigurationOptionsSdkBranch, hsv] at h
        exact Except.noConfusion h
      | some sv =>
        simp only [getConfigurationOptionsSdkBranch, hsv, Except.ok.injEq] at h
        rw [← h, COpts.url]
    cases hrv : st.runtimeVersionCfg with
    | none =>
      simp only [getConfigurationOptions, hrv] at ho
      exact hbranch ho
    | some rv =>
      simp only [getConfigurationOptions, hrv] at ho
      by_cases hrve : rv = ""
      · rw [if_pos hrve] at ho
        exact hbranch ho
      · rw [if_neg hrve] at ho
        simp only [Except.ok.injEq] at ho
        rw [← ho, COpts.url]

/-- Witness for C8: the three resolution outcomes at concrete projects. -/
theorem getConfigurationOptions_spec_witness :
    getConfigurationOptions demoState =
      Except.ok (COpts.runtime "1.0.0" (expUpdateUrl demoState)) ∧
    getConfigurationOptions demoSdkState =
      Except.ok (COpts.sdk "39.0.0" (expUpdateUrl demoSdkState)) ∧
    getConfigurationOptions demoNoVersions = Except.error missingConfigMsg :=
  ⟨(getConfigurationOptions_spec demoState).1 "1.0.0" rfl (by decide),
   (getConfigurationOptions_spec demoSdkState).2.1 rfl "39.0.0" rfl,
   (getConfigurationOptions_spec demoNoVersions).2.2.1 rfl rfl⟩

/-- Counterexample to C3 as stated: `configureUpdatesIOS` (the named
implementation) builds the plist from the options alone — a pre-existing
unrelated key ("SomeUnrelatedKey", none of the three special keys) is NOT
preserved: after a successful run on a project whose `Expo.plist` held it,
the written dictionary no longer contains it. -/
theorem configureUpdatesIOS_discards_plist_counterexample :
    priorPlistState.expoPlist = some [("SomeUnrelatedKey", "untouched")] ∧
    ("SomeUnrelatedKey" ≠ ExpoIOSMetadata.SDK_VERSION ∧
     "SomeUnrelatedKey" ≠ ExpoIOSMetadata.RUNTIME_VERSION ∧
     "SomeUnrelatedKey" ≠ ExpoIOSMetadata.UPDATE_URL) ∧
    configureUpdatesIOS (COpts.runtime "1.0.0" "https://exp.host/@alice/myapp")
        priorPlistState =
      Except.ok (resultState (configureUpdatesIOS
        (COpts.runtime "1.0.0" "https://exp.host/@alice/myapp") priorPlistState)) ∧
    (resultState (configureUpdatesIOS
        (COpts.runtime "1.0.0" "https://exp.host/@alice/myapp") priorPlistState)).expoPlist =
      some [(ExpoIOSMetadata.RUNTIME_VERSION, "1.0.0"),
            (ExpoIOSMetadata.UPDATE_URL, "https://exp.host/@alice/myapp")] ∧
    plistLookup "SomeUnrelatedKey"
      [(ExpoIOSMetadata.RUNTIME_VERSION, "1.0.0"),
       (ExpoIOSMetadata.UPDATE_URL, "https://exp.host/@alice/myapp")] = none :=
  ⟨rfl, by decide, rfl, rfl, by decide⟩

/-- C3 (amended): `configureUpdatesIOS` ignores any existing `Expo.plist`:
whether or not the file existed, the written plist contains exactly the
keys implied by the options (the version key through the enum mapping,
plus the update-URL key); prior unrelated keys are discarded, not
preserved.  (The unnamed variant's `configureUpdatesIOSAsync` is the one
that parses an existing file and merges.) -/
theorem configureUpdatesIOS_writes_exact_items {o : COpts} {st st' : ProjectState}
    (h : configureUpdatesIOS o st = Except.ok st') :
    st'.expoPlist = some (iosItems o) ∧
    (∀ rv url, o = COpts.runtime rv url → rv ≠ "" →
      iosItems o = [(ExpoIOSMetadata.RUNTIME_VERSION, rv),
                    (ExpoIOSMetadata.UPDATE_URL, url)]) ∧
    (∀ sv url, o = COpts.sdk sv url →
      iosItems o = [(ExpoIOSMetadata.SDK_VERSION, sv),
                    (ExpoIOSMetadata.UPDATE_URL, url)]) := by
  obtain ⟨-, -, hpl, -⟩ := configureUpdatesIOS_ok h
  refine ⟨hpl, ?_, ?_⟩
  · rintro rv url rfl hne
    simp [iosItems, hne]
  · rintro sv url rfl
    simp [iosItems]

/-- Witness for the amended C3, at a project whose plist pre-existed. -/
theorem configureUpdatesIOS_writes_exact_items_witness :
    (resultState (configureUpdatesIOS
        (COpts.runtime "1.0.0" "https://exp.host/@alice/myapp") priorPlistState)).expoPlist =
      some (iosItems (COpts.runtime "1.0.0" "https://exp.host/@alice/myapp")) :=
  (@configureUpdatesIOS_writes_exact_items
    (COpts.runtime "1.0.0" "https://exp.host/@alice/myapp") priorPlistState
    (resultState (configureUpdatesIOS
      (COpts.runtime "1.0.0" "https://exp.host/@alice/myapp") priorPlistState)) rfl).1

/-- Counterexample to C4 as stated: on a project whose build-phase script
already contains the include fragment, `configureUpdatesIOS` still writes
the `.pbxproj` file (the write log records the write), so the project
graph is not written "only if a change was made". -/
theorem pbxproj_always_written_counterexample :
    strIncludes ("\x22export NODE_BINARY=node\x5cn" ++ iOSBuildScript ++ "\x5cn\x22")
      iOSBuildScript = true ∧
    configuredScriptState.bundleScript =
      some ("\x22export NODE_BINARY=node\x5cn" ++ iOSBuildScript ++ "\x5cn\x22") ∧
    configuredScriptState.log = [] ∧
    (resultState (configureUpdatesIOS
        (COpts.runtime "1.0.0" "https://exp.host/@alice/myapp")
        configuredScriptState)).log = [FileRef.pbxproj, FileRef.expoPlist] :=
  ⟨strIncludes_append_mid "\x22export NODE_BINARY=node\x5cn" "\x5cn\x22", rfl, rfl, rfl⟩

/-- C4 (amended): `configureUpdatesIOS` writes the Xcode project graph
back unconditionally on every successful run; when the build-phase script
already contains the include fragment, the graph content written is
unchanged (the script text is byte-identical), so only the write event —
not any content change — occurs. -/
theorem pbxproj_written_unconditionally {o : COpts} {st st' : ProjectState} {s : String}
    (hs : st.bundleScript = some s)
    (h : configureUpdatesIOS o st = Except.ok st') :
    st'.log = st.log ++ [FileRef.pbxproj, FileRef.expoPlist] ∧
    (strIncludes s iOSBuildScript = true → st'.bundleScript = st.bundleScript) := by
  obtain ⟨-, ⟨s2, hs2, hs2'⟩, -, hlog, -⟩ := configureUpdatesIOS_ok h
  rw [hs] at hs2
  obtain rfl : s = s2 := Option.some_inj.mp hs2
  refine ⟨hlog, fun hincl => ?_⟩
  rw [hs2', ensureBundleScript_of_includes hincl, hs]

/-- Witness for the amended C4: the write happens and the script stays
byte-identical on the already-included project. -/
theorem pbxproj_written_unconditionally_witness :
    (resultState (configureUpdatesIOS
        (COpts.runtime "1.0.0" "https://exp.host/@alice/myapp")
        configuredScriptState)).log =
      configuredScriptState.log ++ [FileRef.pbxproj, FileRef.expoPlist] ∧
    (resultState (configureUpdatesIOS
        (COpts.runtime "1.0.0" "https://exp.host/@alice/myapp")
        configuredScriptState)).bundleScript = configuredScriptState.bundleScript := by
  have h := @pbxproj_written_unconditionally
    (COpts.runtime "1.0.0" "https://exp.host/@alice/myapp") configuredScriptState
    (resultState (configureUpdatesIOS
      (COpts.runtime "1.0.0" "https://exp.host/@alice/myapp") configuredScriptState))
    ("\x22export NODE_BINARY=node\x5cn" ++ iOSBuildScript ++ "\x5cn\x22") rfl rfl
  exact ⟨h.1, h.2 (strIncludes_append_mid "\x22export NODE_BINARY=node\x5cn" "\x5cn\x22")⟩

/-- C5: starting from a manifest holding neither version record,
configuring with an SDK-version identity and then reconfiguring with a
runtime-version identity leaves metadata stores (Android manifest
meta-data children and the Expo.plist dictionary) holding the
runtime-version record with the new value and no SDK-version record; and
symmetrically in the other order. -/
theorem mode_switch {st stA stB stC stD : ProjectState} {children : List MNode}
    {rv sv url url' : String}
    (hrv : rv ≠ "") (hsv : sv ≠ "")
    (hman : st.manifest = some children)
    (hS0 : findMeta ExpoAndroidMetadata.SDK_VERSION children = none)
    (hR0 : findMeta ExpoAndroidMetadata.RUNTIME_VERSION children = none)
    (h1 : configureUpdatesAndroid (COpts.sdk sv url) st = Except.ok stA)
    (h2 : configureUpdatesAndroid (COpts.runtime rv url') stA = Except.ok stB)
    (h3 : configureUpdatesAndroid (COpts.runtime rv url) st = Except.ok stC)
    (h4 : configureUpdatesAndroid (COpts.sdk sv url') stC = Except.ok stD) :
    (∃ mB, stB.manifest = some mB ∧
      findMeta ExpoAndroidMetadata.SDK_VERSION mB = none ∧
      findMeta ExpoAndroidMetadata.RUNTIME_VERSION mB = some rv) ∧
    (∃ mD, stD.manifest = some mD ∧
      findMeta ExpoAndroidMetadata.RUNTIME_VERSION mD = none ∧
      findMeta ExpoAndroidMetadata.SDK_VERSION mD = some sv) ∧
    plistLookup ExpoIOSMetadata.SDK_VERSION (iosItems (COpts.runtime rv url')) = none ∧
    plistLookup ExpoIOSMetadata.RUNTIME_VERSION (iosItems (COpts.runtime rv url')) = some rv ∧
    plistLookup ExpoIOSMetadata.RUNTIME_VERSION (iosItems (COpts.sdk sv url')) = none ∧
    plistLookup ExpoIOSMetadata.SDK_VERSION (iosItems (COpts.sdk sv url')) = some sv := by
  refine ⟨?_, ?_, ?_, ?_, ?_, ?_⟩
  · -- sdk first, then runtime
    obtain ⟨-, ⟨m1, hm1, hres1⟩, -⟩ := configureUpdatesAndroid_ok h1
    rw [hman] at hm1
    obtain rfl : children = m1 := Option.some_inj.mp hm1
    have hnotset1 : isAndroidMetadataSet (COpts.sdk sv url) children = false := by
      simp [isAndroidMetadataSet, hS0]
    rw [if_neg (by simp [hnotset1])] at hres1
    have hmAdef : androidMetadataSync (COpts.sdk sv url) children =
        updateAndroidMetadata ExpoAndroidMetadata.UPDATE_URL url
          (updateAndroidMetadata ExpoAndroidMetadata.SDK_VERSION sv
            (removeAndroidMetadata ExpoAndroidMetadata.RUNTIME_VERSION children)) := by
      simp [androidMetadataSync, hsv, COpts.url]
    have hRmA : findMeta ExpoAndroidMetadata.RUNTIME_VERSION
        (androidMetadataSync (COpts.sdk sv url) children) = none := by
      rw [hmAdef, findMeta_update_ne aRuntime_ne_aUrl,
        findMeta_update_ne (Ne.symm aSdk_ne_aRuntime)]
      exact findMeta_remove_none _ hR0
    have hSmA : countMeta ExpoAndroidMetadata.SDK_VERSION
        (androidMetadataSync (COpts.sdk sv url) children) ≤ 1 := by
      rw [hmAdef, countMeta_update_ne aSdk_ne_aUrl]
      apply countMeta_update_self_le
      rw [countMeta_remove_ne aSdk_ne_aRuntime, countMeta_eq_zero.mpr hS0]
      omega
    obtain ⟨-, ⟨m2, hm2, hres2⟩, -⟩ := configureUpdatesAndroid_ok h2
    rw [hres1] at hm2
    obtain rfl : androidMetadataSync (COpts.sdk sv url) children = m2 :=
      Option.some_inj.mp hm2
    have hnotset2 : isAndroidMetadataSet (COpts.runtime rv url')
        (androidMetadataSync (COpts.sdk sv url) children) = false := by
      simp [isAndroidMetadataSet, hrv, hRmA]
    rw [if_neg (by simp [hnotset2])] at hres2
    have hmBdef : androidMetadataSync (COpts.runtime rv url')
        (androidMetadataSync (COpts.sdk sv url) children) =
        updateAndroidMetadata ExpoAndroidMetadata.UPDATE_URL url'
          (updateAndroidMetadata ExpoAndroidMetadata.RUNTIME_VERSION rv
            (removeAndroidMetadata ExpoAndroidMetadata.SDK_VERSION
              (androidMetadataSync (COpts.sdk sv url) children))) := by
      simp [androidMetadataSync, hrv, COpts.url]
    refine ⟨_, hres2, ?_, ?_⟩
    · rw [hmBdef, findMeta_update_ne aSdk_ne_aUrl, findMeta_update_ne aSdk_ne_aRuntime]
      exact findMeta_remove_self_of_le_one hSmA
    · rw [hmBdef, findMeta_update_ne aRuntime_ne_aUrl, findMeta_update_self]
  · -- runtime first, then sdk
    obtain ⟨-, ⟨m1, hm1, hres1⟩, -⟩ := configureUpdatesAndroid_ok h3
    rw [hman] at hm1
    obtain rfl : children = m1 := Option.some_inj.mp hm1
    have hnotset1 : isAndroidMetadataSet (COpts.runtime rv url) children = false := by
      simp [isAndroidMetadataSet, hrv, hR0]
    rw [if_neg (by simp [hnotset1])] at hres1
    have hmCdef : androidMetadataSync (COpts.runtime rv url) children =
        updateAndroidMetadata ExpoAndroidMetadata.UPDATE_URL url
          (updateAndroidMetadata ExpoAndroidMetadata.RUNTIME_VERSION rv
            (removeAndroidMetadata ExpoAndroidMetadata.SDK_VERSION children)) := by
      simp [androidMetadataSync, hrv, COpts.url]
    have hSmC : findMeta ExpoAndroidMetadata.SDK_VERSION
        (androidMetadataSync (COpts.runtime rv url) children) = none := by
      rw [hmCdef, findMeta_update_ne aSdk_ne_aUrl, findMeta_update_ne aSdk_ne_aRuntime]
      exact findMeta_remove_none _ hS0
    have hRmC : countMeta ExpoAndroidMetadata.RUNTIME_VERSION
        (androidMetadataSync (COpts.runtime rv url) children) ≤ 1 := by
      rw [hmCdef, countMeta_update_ne aRuntime_ne_aUrl]
      apply countMeta_update_self_le
      rw [countMeta_remove_ne (Ne.symm aSdk_ne_aRuntime), countMeta_eq_zero.mpr hR0]
      omega
    obtain ⟨-, ⟨m2, hm2, hres2⟩, -⟩ := configureUpdatesAndroid_ok h4
    rw [hres1] at hm2
    obtain rfl : androidMetadataSync (COpts.runtime rv url) children = m2 :=
      Option.some_inj.mp hm2
    have hnotset2 : isAndroidMetadataSet (COpts.sdk sv url')
        (androidMetadataSync (COpts.runtime rv url) children) = false := by
      simp [isAndroidMetadataSet, hSmC]
    rw [if_neg (by simp [hnotset2])] at hres2
    have hmDdef : androidMetadataSync (COpts.sdk sv url')
        (androidMetadataSync (COpts.runtime rv url) children) =
        updateAndroidMetadata ExpoAndroidMetadata.UPDATE_URL url'
          (updateAndroidMetadata ExpoAndroidMetadata.SDK_VERSION sv
            (removeAndroidMetadata ExpoAndroidMetadata.RUNTIME_VERSION
              (androidMetadataSync (COpts.runtime rv url) children))) := by
      simp [androidMetadataSync, hsv, COpts.url]
    refine ⟨_, hres2, ?_, ?_⟩
    · rw [hmDdef, findMeta_update_ne aRuntime_ne_aUrl,
        findMeta_update_ne (Ne.symm aSdk_ne_aRuntime)]
      exact findMeta_remove_self_of_le_one hRmC
    · rw [hmDdef, findMeta_update_ne aSdk_ne_aUrl, findMeta_update_self]
  · simp [iosItems, hrv, plistLookup, ExpoIOSMetadata.SDK_VERSION,
      ExpoIOSMetadata.RUNTIME_VERSION, ExpoIOSMetadata.UPDATE_URL]
  · simp [iosItems, hrv, plistLookup, ExpoIOSMetadata.RUNTIME_VERSION]
  · simp [iosItems, plistLookup, ExpoIOSMetadata.SDK_VERSION,
      ExpoIOSMetadata.RUNTIME_VERSION, ExpoIOSMetadata.UPDATE_URL]
  · simp [iosItems, plistLookup, ExpoIOSMetadata.SDK_VERSION]

/-- Witness for C5: the concrete mode switches on the demonstration
project, both directions. -/
theorem mode_switch_witness :
    findMeta ExpoAndroidMetadata.SDK_VERSION
      ((resultState (configureUpdatesAndroid
        (COpts.runtime "1.0.0" "https://exp.host/@alice/myapp")
        (resultState (configureUpdatesAndroid
          (COpts.sdk "39.0.0" "https://exp.host/@alice/myapp")
          demoSdkState)))).manifest.getD []) = none ∧
    findMeta ExpoAndroidMetadata.RUNTIME_VERSION
      ((resultState (configureUpdatesAndroid
        (COpts.runtime "1.0.0" "https://exp.host/@alice/myapp")
        (resultState (configureUpdatesAndroid
          (COpts.sdk "39.0.0" "https://exp.host/@alice/myapp")
          demoSdkState)))).manifest.getD []) = some "1.0.0" ∧
    findMeta ExpoAndroidMetadata.RUNTIME_VERSION
      ((resultState (configureUpdatesAndroid
        (COpts.sdk "39.0.0" "https://exp.host/@alice/myapp")
        (resultState (configureUpdatesAndroid
          (COpts.runtime "1.0.0" "https://exp.host/@alice/myapp")
          demoSdkState)))).manifest.getD []) = none ∧
    findMeta ExpoAndroidMetadata.SDK_VERSION
      ((resultState (configureUpdatesAndroid
        (COpts.sdk "39.0.0" "https://exp.host/@alice/myapp")
        (resultState (configureUpdatesAndroid
          (COpts.runtime "1.0.0" "https://exp.host/@alice/myapp")
          demoSdkState)))).manifest.getD []) = some "39.0.0" := by
  have h := @mode_switch demoSdkState
    (resultState (configureUpdatesAndroid
      (COpts.sdk "39.0.0" "https://exp.host/@alice/myapp") demoSdkState))
    (resultState (configureUpdatesAndroid
      (COpts.runtime "1.0.0" "https://exp.host/@alice/myapp")
      (resultState (configureUpdatesAndroid
        (COpts.sdk "39.0.0" "https://exp.host/@alice/myapp") demoSdkState))))
    (resultState (configureUpdatesAndroid
      (COpts.runtime "1.0.0" "https://exp.host/@alice/myapp") demoSdkState))
    (resultState (configureUpdatesAndroid
      (COpts.sdk "39.0.0" "https://exp.host/@alice/myapp")
      (resultState (configureUpdatesAndroid
        (COpts.runtime "1.0.0" "https://exp.host/@alice/myapp") demoSdkState))))
    [MNode.other "\n    "] "1.0.0" "39.0.0"
    "https://exp.host/@alice/myapp" "https://exp.host/@alice/myapp"
    (by decide) (by decide) rfl rfl rfl rfl rfl rfl rfl
  obtain ⟨⟨mB, hmB, hB1, hB2⟩, ⟨mD, hmD, hD1, hD2⟩, -⟩ := h
  refine ⟨?_, ?_, ?_, ?_⟩
  · rw [hmB, Option.getD_some]; exact hB1
  · rw [hmB, Option.getD_some]; exact hB2
  · rw [hmD, Option.getD_some]; exact hD1
  · rw [hmD, Option.getD_some]; exact hD2

/-- C10: through the swapped `ExpoIOSMetadata` mapping, a runtime version
r is written to the plist under the key "EXUpdatesSDKVersion" and an SDK
version s under the key "EXUpdatesRuntimeVersion"; `isUpdatesConfiguredIOS`
reads back through the same mapping, so configure followed by the iOS
check remains mutually consistent. -/
theorem ios_swapped_keys (rv sv url : String) (hrv : rv ≠ "") :
    plistLookup "EXUpdatesSDKVersion" (iosItems (COpts.runtime rv url)) = some rv ∧
    plistLookup "EXUpdatesRuntimeVersion" (iosItems (COpts.sdk sv url)) = some sv ∧
    ExpoIOSMetadata.RUNTIME_VERSION = "EXUpdatesSDKVersion" ∧
    ExpoIOSMetadata.SDK_VERSION = "EXUpdatesRuntimeVersion" ∧
    (∀ (o : COpts) (st st' : ProjectState), o.valid →
      configureUpdatesIOS o st = Except.ok st' →
      isUpdatesConfiguredIOS o st' = Except.ok true) := by
  refine ⟨?_, ?_, rfl, rfl, ?_⟩
  · simp [iosItems, hrv, plistLookup, ExpoIOSMetadata.RUNTIME_VERSION]
  · simp [iosItems, plistLookup, ExpoIOSMetadata.SDK_VERSION]
  · intro o st st' hv h
    obtain ⟨hpbx, ⟨s, hs1, hs2⟩, hplist, hlog, hp, hu, hr, hsd, hsl, hus, hgr,
      hm, hpx⟩ := configureUpdatesIOS_ok h
    apply isUpdatesConfiguredIOS_true
    · rw [hpx, hpbx]
    · exact ⟨_, hs2, ensureBundleScript_includes s⟩
    · exact ⟨_, hplist, iosVersionAndUrlMatch_iosItems hv⟩

/-- Witness for C10 at concrete versions and the demonstration project. -/
theorem ios_swapped_keys_witness :
    plistLookup "EXUpdatesSDKVersion"
      (iosItems (COpts.runtime "1.0.0" "https://exp.host/@alice/myapp")) = some "1.0.0" ∧
    plistLookup "EXUpdatesRuntimeVersion"
      (iosItems (COpts.sdk "39.0.0" "https://exp.host/@alice/myapp")) = some "39.0.0" ∧
    isUpdatesConfiguredIOS (COpts.runtime "1.0.0" "https://exp.host/@alice/myapp")
      (resultState (configureUpdatesIOS
        (COpts.runtime "1.0.0" "https://exp.host/@alice/myapp") demoState)) =
      Except.ok true := by
  have h := ios_swapped_keys "1.0.0" "39.0.0" "https://exp.host/@alice/myapp" (by decide)
  exact ⟨h.1, h.2.1,
    h.2.2.2.2 (COpts.runtime "1.0.0" "https://exp.host/@alice/myapp") demoState
      (resultState (configureUpdatesIOS
        (COpts.runtime "1.0.0" "https://exp.host/@alice/myapp") demoState))
      (by decide) rfl⟩

/-- C9: at the fully configured demonstration project the two parallel
top-level checks disagree — the named `isUpdatesConfigured` returns true
while the unnamed variant's `isUpdatesConfiguredAsync` returns false —
although the runtime-version meta-data record is present with exactly the
expected value.  The cause is `getAndroidMetadataValue` returning the
found ELEMENT (despite its declared `string | undefined` type), which JS
strict equality never equates with the expected string. -/
theorem parallel_check_divergence :
    isUpdatesConfigured demoConfigured = Except.ok true ∧
    isUpdatesConfiguredAsync demoConfigured = Except.ok false ∧
    findMeta ExpoAndroidMetadata.RUNTIME_VERSION
      (demoConfigured.manifest.getD []) = some "1.0.0" ∧
    jsStrictEqStr
      (getAndroidMetadataValue ExpoAndroidMetadata.RUNTIME_VERSION
        (demoConfigured.manifest.getD [])) "1.0.0" = false :=
  ⟨rfl, rfl, rfl, rfl⟩

end ExpoUpdates
